import Mathlib

/-!
# Verification of the ascii-renderer geometry library

Shallow embedding of `src/src/geometry.hpp`: the classes `Vector3`, `Line`,
`Plane`, `Tri` and `Object` and their operations. The C++ `double` scalars are
modelled as exact rationals (`ℚ`) for the purely arithmetic operations, and as
exact reals (`ℝ`) for the operations built on `sqrt` (`norm`, `normalize`).
-/

namespace AsciiGeom

/-- A vector in R3 (`class Vector3`), components modelled as exact rationals. -/
@[ext]
structure Vector3 where
  x : ℚ
  y : ℚ
  z : ℚ
deriving DecidableEq

/-- The default constructor `Vector3()`: all components set to `0.0f`. -/
def Vector3.zero : Vector3 := ⟨0, 0, 0⟩

/-- The C++ `operator+(Vector3, Vector3)`: component-wise sum. -/
def Vector3.add (v1 v2 : Vector3) : Vector3 :=
  ⟨v1.x + v2.x, v1.y + v2.y, v1.z + v2.z⟩

/-- The C++ `operator*(double, Vector3)`: scaling by a scalar. -/
def Vector3.scale (scalar : ℚ) (v1 : Vector3) : Vector3 :=
  ⟨scalar * v1.x, scalar * v1.y, scalar * v1.z⟩

/-- The C++ `operator-(Vector3, Vector3)`, written in source as `v1 + (-1 * v2)`. -/
def Vector3.sub (v1 v2 : Vector3) : Vector3 :=
  v1.add (Vector3.scale (-1) v2)

/-- The C++ `operator*(Vector3, Vector3)`: dot product. -/
def Vector3.dot (v1 v2 : Vector3) : ℚ :=
  v1.x * v2.x + v1.y * v2.y + v1.z * v2.z

/-- The `static double epsilon = 0.005` of `operator==`. -/
def Vector3.epsilon : ℚ := 0.005

/-- The C++ `operator==(Vector3, Vector3)`: approximate equality, each
component of the difference strictly inside `(-epsilon, epsilon)`. -/
def Vector3.equals (v1 v2 : Vector3) : Bool :=
  let diff := v1.sub v2
  let bx := decide (diff.x < Vector3.epsilon) && decide (diff.x > -Vector3.epsilon)
  let by_ := decide (diff.y < Vector3.epsilon) && decide (diff.y > -Vector3.epsilon)
  let bz := decide (diff.z < Vector3.epsilon) && decide (diff.z > -Vector3.epsilon)
  bx && by_ && bz

/-- The C++ `Vector3::cross`: right-handed 3D cross product. -/
def Vector3.cross (v1 v2 : Vector3) : Vector3 :=
  ⟨v1.y * v2.z - v1.z * v2.y, v1.z * v2.x - v1.x * v2.z, v1.x * v2.y - v1.y * v2.x⟩

/-- A line in R3 (`class Line`): direction `d` and point `p`. -/
@[ext]
structure Line where
  d : Vector3
  p : Vector3
deriving DecidableEq

/-- The C++ `Line::getLine(p1, p2)`: direction `p2 - p1`, anchor `p1`. -/
def Line.getLine (p1 p2 : Vector3) : Line :=
  ⟨p2.sub p1, p1⟩

/-- A plane in R3 (`class Plane`): spanning vectors `d1`, `d2` and point `p`. -/
@[ext]
structure Plane where
  d1 : Vector3
  d2 : Vector3
  p : Vector3
deriving DecidableEq

/-- The default constructor `Plane()`: the XY-plane through the origin. -/
def Plane.defaultPlane : Plane :=
  ⟨⟨1, 0, 0⟩, ⟨0, 1, 0⟩, ⟨0, 0, 0⟩⟩

/-- The C++ `Plane::getTangentPlane(line)`: seed `a = (0,1,0)`; if
`line.d.z == 0` exactly, replace it with `(0,0,1)`; otherwise set
`a.z = -line.d.y / line.d.z`; second spanning vector `b = cross(a, line.d)`;
returns `Plane(a, b, line.p)`. -/
def Plane.getTangentPlane (line : Line) : Plane :=
  let a : Vector3 :=
    if line.d.z = 0 then ⟨0, 0, 1⟩ else ⟨0, 1, -line.d.y / line.d.z⟩
  let b := Vector3.cross a line.d
  ⟨a, b, line.p⟩

/-- The C++ `Plane::norm`: the derived (non-normalized) normal `cross(d1, d2)`. -/
def Plane.norm (pl : Plane) : Vector3 :=
  Vector3.cross pl.d1 pl.d2

/-- The C++ `Plane::lineIntersection(line)`: numerator
`n * line.p - n.x*line.p.x - n.y*line.p.y - n.z*line.p.z`, denominator
`n.x*line.d.x + n.y*line.d.y + n.z*line.d.z`; if the denominator is exactly
zero, return the default `Vector3()`; otherwise `line.p + t * line.d` with
`t = numerator / denominator`. -/
def Plane.lineIntersection (pl : Plane) (line : Line) : Vector3 :=
  let n := pl.norm
  let numerator := n.dot line.p - n.x * line.p.x - n.y * line.p.y - n.z * line.p.z
  let denominator := n.x * line.d.x + n.y * line.d.y + n.z * line.d.z
  if denominator = 0 then Vector3.zero
  else line.p.add (Vector3.scale (numerator / denominator) line.d)

/-- C1: in `Plane::lineIntersection` the numerator expression is algebraically
zero (the dot product expanded and immediately subtracted back out), so
whenever the denominator `dot(normal(plane), line.d)` is nonzero the function
returns `line.p`, the line's anchor, independent of the plane's anchor. -/
theorem C1_lineIntersection_returns_anchor (pl : Plane) (line : Line) :
    (pl.norm.dot line.p - pl.norm.x * line.p.x - pl.norm.y * line.p.y
      - pl.norm.z * line.p.z = 0) ∧
    (Vector3.dot pl.norm line.d ≠ 0 → pl.lineIntersection line = line.p) := by
  constructor
  · simp [Vector3.dot]
    ring
  · intro h
    have hden : pl.norm.x * line.d.x + pl.norm.y * line.d.y
        + pl.norm.z * line.d.z ≠ 0 := h
    simp only [Plane.lineIntersection, hden, if_neg hden]
    have hnum : pl.norm.dot line.p - pl.norm.x * line.p.x - pl.norm.y * line.p.y
        - pl.norm.z * line.p.z = 0 := by
      simp [Vector3.dot]; ring
    rw [hnum]
    ext <;> simp [Vector3.add, Vector3.scale]

/-- Witness for C1: the default XY-plane and the line `d=(0,0,-1), p=(0,0,5)`
have nonzero denominator and the intersection returned is the anchor `(0,0,5)`. -/
theorem C1_witness :
    Vector3.dot Plane.defaultPlane.norm (⟨⟨0, 0, -1⟩, ⟨0, 0, 5⟩⟩ : Line).d ≠ 0 ∧
    Plane.defaultPlane.lineIntersection ⟨⟨0, 0, -1⟩, ⟨0, 0, 5⟩⟩ = ⟨0, 0, 5⟩ := by
  have hd : Vector3.dot Plane.defaultPlane.norm
      (⟨⟨0, 0, -1⟩, ⟨0, 0, 5⟩⟩ : Line).d ≠ 0 := by
    norm_num [Vector3.dot, Plane.norm, Plane.defaultPlane, Vector3.cross]
  exact ⟨hd, (C1_lineIntersection_returns_anchor Plane.defaultPlane
    ⟨⟨0, 0, -1⟩, ⟨0, 0, 5⟩⟩).2 hd⟩

/-- C2: if `dot(normal(plane), line.d)` is exactly zero, `lineIntersection`
returns the zero vector `(0,0,0)` sentinel. -/
theorem C2_lineIntersection_parallel_sentinel (pl : Plane) (line : Line)
    (h : Vector3.dot pl.norm line.d = 0) :
    pl.lineIntersection line = Vector3.zero := by
  have hden : pl.norm.x * line.d.x + pl.norm.y * line.d.y
      + pl.norm.z * line.d.z = 0 := h
  simp [Plane.lineIntersection, hden]

/-- Witness for C2: a line with `d=(1,0,0)` against the default plane, whose
normal is `(0,0,1)`, hits the zero-denominator case and yields the sentinel. -/
theorem C2_witness :
    Plane.defaultPlane.norm = ⟨0, 0, 1⟩ ∧
    Vector3.dot Plane.defaultPlane.norm (⟨⟨1, 0, 0⟩, ⟨2, 3, 4⟩⟩ : Line).d = 0 ∧
    Plane.defaultPlane.lineIntersection ⟨⟨1, 0, 0⟩, ⟨2, 3, 4⟩⟩ = Vector3.zero := by
  have hd : Vector3.dot Plane.defaultPlane.norm
      (⟨⟨1, 0, 0⟩, ⟨2, 3, 4⟩⟩ : Line).d = 0 := by
    norm_num [Vector3.dot, Plane.norm, Plane.defaultPlane, Vector3.cross]
  refine ⟨?_, hd, C2_lineIntersection_parallel_sentinel Plane.defaultPlane
    ⟨⟨1, 0, 0⟩, ⟨2, 3, 4⟩⟩ hd⟩
  ext <;> norm_num [Plane.norm, Plane.defaultPlane, Vector3.cross]

/-- C3: the plane built by `getTangentPlane` passes through `line.p` (its
anchor is `line.p`) and is perpendicular to `line.d`: both spanning vectors
`d1` and `d2` have dot product zero with `line.d`; moreover `d1 = (0,0,1)` in
the `line.d.z == 0` branch and `d1 = (0, 1, -line.d.y/line.d.z)` otherwise. -/
theorem C3_tangent_plane_perpendicular (line : Line) :
    (Plane.getTangentPlane line).p = line.p ∧
    Vector3.dot (Plane.getTangentPlane line).d1 line.d = 0 ∧
    Vector3.dot (Plane.getTangentPlane line).d2 line.d = 0 ∧
    (line.d.z = 0 → (Plane.getTangentPlane line).d1 = ⟨0, 0, 1⟩) ∧
    (line.d.z ≠ 0 →
      (Plane.getTangentPlane line).d1 = ⟨0, 1, -line.d.y / line.d.z⟩) := by
  by_cases hz : line.d.z = 0
  · refine ⟨rfl, ?_, ?_, fun _ => ?_, fun h => absurd hz h⟩
    · simp [Plane.getTangentPlane, hz, Vector3.dot]
    · simp [Plane.getTangentPlane, hz, Vector3.dot, Vector3.cross]
      ring
    · simp [Plane.getTangentPlane, hz]
  · refine ⟨rfl, ?_, ?_, fun h => absurd h hz, fun _ => ?_⟩
    · simp [Plane.getTangentPlane, hz, Vector3.dot]
    · simp [Plane.getTangentPlane, hz, Vector3.dot, Vector3.cross]
      ring
    · simp [Plane.getTangentPlane, hz]

/-- Witness for C3: concrete evaluations in both branches, for the line
`d=(1,2,2), p=(3,4,5)` (general branch) and `d=(1,0,0), p=(0,0,0)` (edge
branch). -/
theorem C3_witness :
    (Plane.getTangentPlane ⟨⟨1, 2, 2⟩, ⟨3, 4, 5⟩⟩).p = (⟨3, 4, 5⟩ : Vector3) ∧
    (Plane.getTangentPlane ⟨⟨1, 2, 2⟩, ⟨3, 4, 5⟩⟩).d1 = ⟨0, 1, -(2 / 2)⟩ ∧
    (Plane.getTangentPlane ⟨⟨1, 0, 0⟩, ⟨0, 0, 0⟩⟩).d1 = ⟨0, 0, 1⟩ := by
  refine ⟨(C3_tangent_plane_perpendicular ⟨⟨1, 2, 2⟩, ⟨3, 4, 5⟩⟩).1, ?_, ?_⟩
  · have h := (C3_tangent_plane_perpendicular ⟨⟨1, 2, 2⟩, ⟨3, 4, 5⟩⟩).2.2.2.2
      (by norm_num)
    rw [h]
    ext <;> norm_num
  · exact (C3_tangent_plane_perpendicular ⟨⟨1, 0, 0⟩, ⟨0, 0, 0⟩⟩).2.2.2.1 rfl

/-- C4: `equals` is the axis-aligned box test with strict bounds: it is true
iff every component-wise difference lies strictly inside `(-0.005, 0.005)`;
consequently it rejects a difference of exactly `0.005` in some axis and
accepts a difference of `0.0025` in every axis. -/
theorem C4_equals_box_test (a b : Vector3) :
    (a.equals b = true ↔
      ((a.x - b.x < 0.005 ∧ -0.005 < a.x - b.x) ∧
       (a.y - b.y < 0.005 ∧ -0.005 < a.y - b.y) ∧
       (a.z - b.z < 0.005 ∧ -0.005 < a.z - b.z))) ∧
    ((|a.x - b.x| = 0.005 ∨ |a.y - b.y| = 0.005 ∨ |a.z - b.z| = 0.005) →
      a.equals b = false) ∧
    ((|a.x - b.x| = 0.0025 ∧ |a.y - b.y| = 0.0025 ∧ |a.z - b.z| = 0.0025) →
      a.equals b = true) := by
  have ex : a.x + -1 * b.x = a.x - b.x := by ring
  have ey : a.y + -1 * b.y = a.y - b.y := by ring
  have ez : a.z + -1 * b.z = a.z - b.z := by ring
  have hiff : a.equals b = true ↔
      ((a.x - b.x < 0.005 ∧ -0.005 < a.x - b.x) ∧
       (a.y - b.y < 0.005 ∧ -0.005 < a.y - b.y) ∧
       (a.z - b.z < 0.005 ∧ -0.005 < a.z - b.z)) := by
    simp only [Vector3.equals, Vector3.sub, Vector3.add, Vector3.scale,
      Vector3.epsilon, Bool.and_eq_true, decide_eq_true_eq, gt_iff_lt,
      neg_lt, ex, ey, ez]
    constructor
    · rintro ⟨⟨hx, hy⟩, hz⟩
      exact ⟨⟨hx.1, by linarith [hx.2]⟩, ⟨hy.1, by linarith [hy.2]⟩,
        ⟨hz.1, by linarith [hz.2]⟩⟩
    · rintro ⟨hx, hy, hz⟩
      exact ⟨⟨⟨hx.1, by linarith [hx.2]⟩, ⟨hy.1, by linarith [hy.2]⟩⟩,
        ⟨hz.1, by linarith [hz.2]⟩⟩
  have habs : (0 : ℚ) ≤ 0.005 := by norm_num
  refine ⟨hiff, ?_, ?_⟩
  · intro h
    rw [Bool.eq_false_iff, Ne, hiff]
    rintro ⟨hx, hy, hz⟩
    rcases h with h | h | h <;> rcases (abs_eq habs).mp h with h' | h' <;> linarith
  · rintro ⟨hx, hy, hz⟩
    rw [hiff]
    have bx := abs_le.mp hx.le
    have bY := abs_le.mp hy.le
    have bz := abs_le.mp hz.le
    refine ⟨⟨?_, ?_⟩, ⟨?_, ?_⟩, ⟨?_, ?_⟩⟩ <;>
      linarith [bx.1, bx.2, bY.1, bY.2, bz.1, bz.2]

/-- Witness for C4: `equals` rejects `(0.005, 0, 0)` versus the origin but
accepts `(0.0025, 0.0025, 0.0025)` versus the origin. -/
theorem C4_witness :
    Vector3.equals ⟨0.005, 0, 0⟩ ⟨0, 0, 0⟩ = false ∧
    Vector3.equals ⟨0.0025, 0.0025, 0.0025⟩ ⟨0, 0, 0⟩ = true := by
  constructor
  · refine (C4_equals_box_test ⟨0.005, 0, 0⟩ ⟨0, 0, 0⟩).2.1 (Or.inl ?_)
    rw [sub_zero, abs_of_pos]
    norm_num
  · refine (C4_equals_box_test ⟨0.0025, 0.0025, 0.0025⟩ ⟨0, 0, 0⟩).2.2
      ⟨?_, ?_, ?_⟩ <;> rw [sub_zero, abs_of_pos] <;> norm_num

/-- C9: the derived normal of the tangent plane of a line is
`cross(a, cross(a, line.d))` where `a` is the first spanning vector, and this
equals `scale(-dot(a,a), line.d)`; since `dot(a, line.d) = 0` and
`dot(a,a) ≥ 1` in both branches, the normal is a nonzero negative multiple of
`line.d` whenever `line.d` is nonzero. -/
theorem C9_tangent_normal_antiparallel (line : Line) :
    (Plane.getTangentPlane line).norm
      = Vector3.cross (Plane.getTangentPlane line).d1
          (Vector3.cross (Plane.getTangentPlane line).d1 line.d) ∧
    (Plane.getTangentPlane line).norm
      = Vector3.scale
          (-(Vector3.dot (Plane.getTangentPlane line).d1
              (Plane.getTangentPlane line).d1)) line.d ∧
    Vector3.dot (Plane.getTangentPlane line).d1 line.d = 0 ∧
    1 ≤ Vector3.dot (Plane.getTangentPlane line).d1
          (Plane.getTangentPlane line).d1 ∧
    (line.d ≠ Vector3.zero → (Plane.getTangentPlane line).norm ≠ Vector3.zero) := by
  have key :
      (Plane.getTangentPlane line).norm
        = Vector3.cross (Plane.getTangentPlane line).d1
            (Vector3.cross (Plane.getTangentPlane line).d1 line.d) ∧
      (Plane.getTangentPlane line).norm
        = Vector3.scale
            (-(Vector3.dot (Plane.getTangentPlane line).d1
                (Plane.getTangentPlane line).d1)) line.d ∧
      Vector3.dot (Plane.getTangentPlane line).d1 line.d = 0 ∧
      1 ≤ Vector3.dot (Plane.getTangentPlane line).d1
            (Plane.getTangentPlane line).d1 := by
    by_cases hz : line.d.z = 0
    · refine ⟨rfl, ?_, ?_, ?_⟩
      · ext <;>
          simp [Plane.getTangentPlane, hz, Plane.norm, Vector3.cross,
            Vector3.dot, Vector3.scale]
      · simp [Plane.getTangentPlane, hz, Vector3.dot]
      · simp [Plane.getTangentPlane, hz, Vector3.dot]
    · refine ⟨rfl, ?_, ?_, ?_⟩
      · ext <;>
          simp [Plane.getTangentPlane, hz, Plane.norm, Vector3.cross,
            Vector3.dot, Vector3.scale] <;> field_simp <;> ring
      · simp [Plane.getTangentPlane, hz, Vector3.dot]
      · simp [Plane.getTangentPlane, hz, Vector3.dot]
        nlinarith [sq_nonneg (line.d.y / line.d.z)]
  refine ⟨key.1, key.2.1, key.2.2.1, key.2.2.2, ?_⟩
  intro hd hnorm
  have hc : Vector3.dot (Plane.getTangentPlane line).d1
      (Plane.getTangentPlane line).d1 ≠ 0 := by
    intro h0
    have h1 := key.2.2.2
    rw [h0] at h1
    norm_num at h1
  rw [key.2.1] at hnorm
  simp only [Vector3.scale, Vector3.zero, Vector3.mk.injEq, neg_mul,
    neg_eq_zero, mul_eq_zero] at hnorm
  have hx := hnorm.1.resolve_left hc
  have hy := hnorm.2.1.resolve_left hc
  have hz3 := hnorm.2.2.resolve_left hc
  apply hd
  ext <;> simp [Vector3.zero, hx, hy, hz3]

/-- Witness for C9: for the line `d=(1,2,0), p=(7,8,9)` (nonzero direction)
the tangent plane's derived normal is nonzero. -/
theorem C9_witness :
    (Plane.getTangentPlane ⟨⟨1, 2, 0⟩, ⟨7, 8, 9⟩⟩).norm ≠ Vector3.zero := by
  refine (C9_tangent_normal_antiparallel ⟨⟨1, 2, 0⟩, ⟨7, 8, 9⟩⟩).2.2.2.2 ?_
  intro h
  have hx : (1 : ℚ) = 0 := congrArg Vector3.x h
  norm_num at hx

/-- A vector in R3 with exact real components: the image of `Vector3` used for
the operations that involve `sqrt` (`Vector3::norm` and `Vector3::normalize`),
which leave the rationals. -/
@[ext]
structure RVector3 where
  x : ℝ
  y : ℝ
  z : ℝ

/-- Interpret a rational-component vector as a real-component vector. -/
def Vector3.toR (v : Vector3) : RVector3 := ⟨v.x, v.y, v.z⟩

/-- The zero vector with real components. -/
def RVector3.zero : RVector3 := ⟨0, 0, 0⟩

/-- The C++ `Vector3::norm`: `sqrt(x*x + y*y + z*z)`. -/
noncomputable def RVector3.norm (v : RVector3) : ℝ :=
  Real.sqrt (v.x * v.x + v.y * v.y + v.z * v.z)

/-- The C++ `Vector3::normalize`, modelled as a pure function on the value: if
the norm is exactly `0` the vector is returned unchanged (the source returns
early, performing no division); otherwise each component is divided by the
norm. -/
noncomputable def RVector3.normalize (v : RVector3) : RVector3 :=
  if v.norm = 0 then v else ⟨v.x / v.norm, v.y / v.norm, v.z / v.norm⟩

/-- A triangular face in R3 (`class Tri`): the three entries of the vertex
array `p[3]`, written `p0`, `p1`, `p2`. -/
structure Tri where
  p0 : Vector3
  p1 : Vector3
  p2 : Vector3
deriving DecidableEq

/-- The C++ `Tri::norm`: `d1 = p[1] - p[0]`, `d2 = p[2] - p[0]`, then
`cross(d1, d2)` normalized in place before being returned. -/
noncomputable def Tri.norm (t : Tri) : RVector3 :=
  (Vector3.toR (Vector3.cross (t.p1.sub t.p0) (t.p2.sub t.p0))).normalize

/-- A 3D object (`class Object`): position, rotation and a triangle list. -/
structure Object where
  position : Vector3
  rotation : Vector3
  tris : List Tri
deriving DecidableEq

/-- The default constructor `Object()`: an empty body, so every member is
default-initialized: `position = rotation = Vector3() = (0,0,0)` and the
triangle vector is empty. -/
def Object.mkDefault : Object := ⟨Vector3.zero, Vector3.zero, []⟩

/-- The constructor `Object(vector<Tri> tris)`: stores the given triangles;
`position` and `rotation` are default-initialized to `(0,0,0)`. -/
def Object.ofTris (tris : List Tri) : Object := ⟨Vector3.zero, Vector3.zero, tris⟩

/-- Helper: the sum of the three squared components is nonnegative. -/
lemma RVector3.sumSq_nonneg (v : RVector3) :
    0 ≤ v.x * v.x + v.y * v.y + v.z * v.z :=
  add_nonneg (add_nonneg (mul_self_nonneg _) (mul_self_nonneg _))
    (mul_self_nonneg _)

/-- Helper: a vector of norm 0 is the zero vector. -/
lemma RVector3.eq_zero_of_norm_eq_zero (v : RVector3) (h : v.norm = 0) :
    v = RVector3.zero := by
  have hle : v.x * v.x + v.y * v.y + v.z * v.z ≤ 0 := Real.sqrt_eq_zero'.mp h
  have hx : v.x = 0 := mul_self_eq_zero.mp (le_antisymm
    (by nlinarith [mul_self_nonneg v.y, mul_self_nonneg v.z]) (mul_self_nonneg v.x))
  have hy : v.y = 0 := mul_self_eq_zero.mp (le_antisymm
    (by nlinarith [mul_self_nonneg v.x, mul_self_nonneg v.z]) (mul_self_nonneg v.y))
  have hz : v.z = 0 := mul_self_eq_zero.mp (le_antisymm
    (by nlinarith [mul_self_nonneg v.x, mul_self_nonneg v.y]) (mul_self_nonneg v.z))
  ext <;> simp [RVector3.zero, hx, hy, hz]

/-- Helper: concrete evaluation of the norm of `(0,0,2)`. -/
lemma RVector3.norm_002 : RVector3.norm ⟨0, 0, 2⟩ = 2 := by
  have h : ((0:ℝ) * 0 + 0 * 0 + 2 * 2) = 2 ^ 2 := by norm_num
  simp only [RVector3.norm, h, Real.sqrt_sq (by norm_num : (0:ℝ) ≤ 2)]

/-- C6: `normalize` of a vector of norm exactly 0 (equivalently, of the zero
vector) returns the vector unchanged, taking the early-return branch; for any
other vector it divides each of the three components by the Euclidean norm. -/
theorem C6_normalize_zero_guard :
    (∀ v : RVector3, v.norm = 0 → v.normalize = v) ∧
    (∀ v : RVector3, v.norm = 0 ↔ v = RVector3.zero) ∧
    (∀ v : RVector3, v.norm ≠ 0 →
      v.normalize = ⟨v.x / v.norm, v.y / v.norm, v.z / v.norm⟩) := by
  refine ⟨fun v h => by simp [RVector3.normalize, h],
    fun v => ⟨RVector3.eq_zero_of_norm_eq_zero v, fun h => ?_⟩,
    fun v h => by simp [RVector3.normalize, h]⟩
  subst h
  simp [RVector3.norm, RVector3.zero]

/-- Witness for C6: the zero vector has norm 0 and is returned unchanged;
`(0,0,2)` has norm 2 and is divided through by it, giving `(0,0,1)`. -/
theorem C6_witness :
    RVector3.norm ⟨0, 0, 0⟩ = 0 ∧
    RVector3.normalize ⟨0, 0, 0⟩ = (⟨0, 0, 0⟩ : RVector3) ∧
    RVector3.norm ⟨0, 0, 2⟩ ≠ 0 ∧
    RVector3.normalize ⟨0, 0, 2⟩ = ⟨0, 0, 1⟩ := by
  have h0 : RVector3.norm ⟨0, 0, 0⟩ = 0 := by simp [RVector3.norm]
  have h2 : RVector3.norm ⟨0, 0, 2⟩ ≠ 0 := by rw [RVector3.norm_002]; norm_num
  refine ⟨h0, C6_normalize_zero_guard.1 ⟨0, 0, 0⟩ h0, h2, ?_⟩
  have h := C6_normalize_zero_guard.2.2 ⟨0, 0, 2⟩ h2
  rw [h, RVector3.norm_002]
  ext <;> norm_num

/-- C7: for every vector of positive norm, the norm of the normalized vector
is exactly 1 in exact real arithmetic, hence in particular within the library
epsilon 0.005 of 1. -/
theorem C7_normalize_unit_norm (v : RVector3) (h : 0 < v.norm) :
    (RVector3.normalize v).norm = 1 ∧
    |(RVector3.normalize v).norm - 1| < 0.005 := by
  have hne : v.norm ≠ 0 := ne_of_gt h
  have hnn : v.norm * v.norm = v.x * v.x + v.y * v.y + v.z * v.z :=
    Real.mul_self_sqrt v.sumSq_nonneg
  have h1 : (RVector3.normalize v).norm = 1 := by
    unfold RVector3.normalize
    rw [if_neg hne]
    show Real.sqrt (v.x / v.norm * (v.x / v.norm) + v.y / v.norm * (v.y / v.norm)
      + v.z / v.norm * (v.z / v.norm)) = 1
    have hq : v.x / v.norm * (v.x / v.norm) + v.y / v.norm * (v.y / v.norm)
        + v.z / v.norm * (v.z / v.norm) = 1 := by
      field_simp
      linarith [hnn]
    rw [hq, Real.sqrt_one]
  exact ⟨h1, by rw [h1]; norm_num⟩

/-- Witness for C7: the vector `(0,0,2)` has positive norm and its
normalization has norm exactly 1. -/
theorem C7_witness :
    0 < RVector3.norm ⟨0, 0, 2⟩ ∧
    (RVector3.normalize ⟨0, 0, 2⟩).norm = 1 := by
  have hp : 0 < RVector3.norm ⟨0, 0, 2⟩ := by rw [RVector3.norm_002]; norm_num
  exact ⟨hp, (C7_normalize_unit_norm ⟨0, 0, 2⟩ hp).1⟩

/-- C10: both `Object` constructors leave `position` and `rotation` at the
default-constructed zero vector; the default constructor leaves the triangle
list empty, and the triangle-taking constructor stores its argument unchanged. -/
theorem C10_object_constructors :
    Object.mkDefault.position = Vector3.zero ∧
    Object.mkDefault.rotation = Vector3.zero ∧
    Object.mkDefault.tris = [] ∧
    ∀ ts : List Tri, (Object.ofTris ts).position = Vector3.zero ∧
      (Object.ofTris ts).rotation = Vector3.zero ∧ (Object.ofTris ts).tris = ts :=
  ⟨rfl, rfl, rfl, fun _ => ⟨rfl, rfl, rfl⟩⟩

/-- Helper: the rational zero vector maps to the real zero vector. -/
lemma Vector3.toR_zero_mk : Vector3.toR ⟨0, 0, 0⟩ = (⟨0, 0, 0⟩ : RVector3) := by
  ext <;> simp [Vector3.toR]

/-- Helper: `normalize` of the literal zero vector is itself. -/
lemma RVector3.normalize_zero_mk :
    RVector3.normalize ⟨0, 0, 0⟩ = (⟨0, 0, 0⟩ : RVector3) := by
  simp [RVector3.normalize, RVector3.norm]

/-- C8: the triangle normal is `normalize(cross(p1-p0, p2-p0))`, so its sign
follows the right-hand rule over the stored vertex order; for collinear or
degenerate vertices (one difference vector a scalar multiple of the other) the
cross product is zero and the result is the zero vector; and the concrete
triangle `((0,0,0), (1,0,0), (0,1,0))` has normal `(0,0,1)`. -/
theorem C8_tri_normal_cross_normalized :
    (∀ t : Tri, t.norm
      = (Vector3.toR (Vector3.cross (t.p1.sub t.p0) (t.p2.sub t.p0))).normalize) ∧
    (∀ t : Tri, (∃ c : ℚ, t.p2.sub t.p0 = Vector3.scale c (t.p1.sub t.p0) ∨
        t.p1.sub t.p0 = Vector3.scale c (t.p2.sub t.p0)) →
      t.norm = RVector3.zero) ∧
    Tri.norm ⟨⟨0, 0, 0⟩, ⟨1, 0, 0⟩, ⟨0, 1, 0⟩⟩ = ⟨0, 0, 1⟩ := by
  refine ⟨fun t => rfl, ?_, ?_⟩
  · rintro t ⟨c, h | h⟩
    · have hc : Vector3.cross (t.p1.sub t.p0) (t.p2.sub t.p0) = ⟨0, 0, 0⟩ := by
        rw [h]
        ext <;> simp [Vector3.cross, Vector3.scale] <;> ring
      unfold Tri.norm
      rw [hc, Vector3.toR_zero_mk, RVector3.normalize_zero_mk]
      rfl
    · have hc : Vector3.cross (t.p1.sub t.p0) (t.p2.sub t.p0) = ⟨0, 0, 0⟩ := by
        rw [h]
        ext <;> simp [Vector3.cross, Vector3.scale] <;> ring
      unfold Tri.norm
      rw [hc, Vector3.toR_zero_mk, RVector3.normalize_zero_mk]
      rfl
  · have hc : Vector3.cross ((⟨1, 0, 0⟩ : Vector3).sub ⟨0, 0, 0⟩)
        ((⟨0, 1, 0⟩ : Vector3).sub ⟨0, 0, 0⟩) = ⟨0, 0, 1⟩ := by
      ext <;> norm_num [Vector3.cross, Vector3.sub, Vector3.add, Vector3.scale]
    show (Vector3.toR (Vector3.cross ((⟨1, 0, 0⟩ : Vector3).sub ⟨0, 0, 0⟩)
        ((⟨0, 1, 0⟩ : Vector3).sub ⟨0, 0, 0⟩))).normalize = ⟨0, 0, 1⟩
    rw [hc]
    have ht : Vector3.toR ⟨0, 0, 1⟩ = (⟨0, 0, 1⟩ : RVector3) := by
      ext <;> simp [Vector3.toR]
    rw [ht]
    have hn : RVector3.norm ⟨0, 0, 1⟩ = 1 := by simp [RVector3.norm]
    unfold RVector3.normalize
    rw [if_neg (by rw [hn]; norm_num), hn]
    ext <;> norm_num

/-- Witness for C8: the degenerate (collinear) triangle
`((0,0,0), (1,0,0), (2,0,0))` has the zero vector as its normal. -/
theorem C8_witness :
    Tri.norm ⟨⟨0, 0, 0⟩, ⟨1, 0, 0⟩, ⟨2, 0, 0⟩⟩ = RVector3.zero := by
  refine C8_tri_normal_cross_normalized.2.1 ⟨⟨0, 0, 0⟩, ⟨1, 0, 0⟩, ⟨2, 0, 0⟩⟩
    ⟨2, Or.inl ?_⟩
  ext <;> norm_num [Vector3.sub, Vector3.add, Vector3.scale]

/-- Helper: decimal digit character of `n % 10`. -/
def decDigit (n : ℕ) : Char := Char.ofNat (48 + n % 10)

/-- Helper: the six digits after the decimal point of a fixed-point rendering
whose scaled integer value is `n`, most significant first (the decimal digits
of `n % 10^6`). -/
def frac6 (n : ℕ) : String :=
  String.mk [decDigit (n / 100000), decDigit (n / 10000), decDigit (n / 1000),
    decDigit (n / 100), decDigit (n / 10), decDigit n]

/-- The C++ `std::to_string(double)` on a nonnegative value: the C++ standard
specifies it as `sprintf` with format `%f`, fixed-point notation with
precision 6, modelled here on the exact rational value with rounding to the
nearest sixth decimal. -/
def toString6Nonneg (q : ℚ) : String :=
  let n : ℕ := (⌊q * 1000000 + 1 / 2⌋).toNat
  toString (n / 1000000) ++ "." ++ frac6 n

/-- The C++ `std::to_string(double)` on a signed value: a leading minus sign
before the fixed-point magnitude. -/
def toString6 (q : ℚ) : String :=
  if q < 0 then "-" ++ toString6Nonneg (-q) else toString6Nonneg q

/-- The C++ `Vector3::operator std::string`: the format `"(x, y, z)"` with
each component rendered by `std::to_string`. -/
def Vector3.toString (v : Vector3) : String :=
  "(" ++ toString6 v.x ++ ", " ++ toString6 v.y ++ ", " ++ toString6 v.z ++ ")"

/-- Helper: string concatenation is associative. -/
lemma string_append_assoc (a b c : String) : a ++ b ++ c = a ++ (b ++ c) := by
  cases a; cases b; cases c
  simp only [HAppend.hAppend, Append.append, String.append]
  congr 1
  exact List.append_assoc _ _ _

/-- Helper: concrete evaluation of the component formatting at 0: the output
is padded with six zero decimals, exactly as `sprintf("%f", 0.0)` pads. -/
lemma toString6_eval_zero : toString6 0 = "0.000000" := by
  simp only [toString6, toString6Nonneg]
  rw [if_neg (by norm_num : ¬ (0:ℚ) < 0)]
  have h : (⌊(0:ℚ) * 1000000 + 1 / 2⌋).toNat = 0 := by norm_num
  rw [h]
  rfl

/-- Counterexample to C5 as stated: at the concrete input `(0,0,0)` every
component is rendered padded to a fixed six decimal digits — the output is
the string with three times 0.000000 rather than an unpadded default
conversion such as three times 0 — because `std::to_string(double)` is
defined as fixed-precision `sprintf("%f")`, contradicting the claim that the
output is not padded or cut to a fixed number of decimal digits. -/
theorem C5_counterexample :
    Vector3.toString ⟨0, 0, 0⟩ = "(0.000000, 0.000000, 0.000000)" ∧
    Vector3.toString ⟨0, 0, 0⟩ ≠ "(0, 0, 0)" := by
  have e : Vector3.toString ⟨0, 0, 0⟩
      = "(" ++ toString6 0 ++ ", " ++ toString6 0 ++ ", " ++ toString6 0 ++ ")" :=
    rfl
  have hmain : Vector3.toString ⟨0, 0, 0⟩ = "(0.000000, 0.000000, 0.000000)" := by
    rw [e, toString6_eval_zero]
    rfl
  refine ⟨hmain, ?_⟩
  rw [hmain]
  decide

/-- C5 as amended: `toString` produces the parenthesized, comma-separated
format over the three components, and each component is rendered in
fixed-point notation with exactly six digits after the decimal point (the
`std::to_string` / `%f` behaviour), rather than by a default shortest
double-to-decimal conversion. -/
theorem C5_toString_fixed_six :
    (∀ v : Vector3, Vector3.toString v
      = "(" ++ toString6 v.x ++ ", " ++ toString6 v.y ++ ", "
          ++ toString6 v.z ++ ")") ∧
    ∀ q : ℚ, ∃ a b : String, toString6 q = a ++ "." ++ b ∧ b.length = 6 := by
  refine ⟨fun v => rfl, fun q => ?_⟩
  unfold toString6 toString6Nonneg
  by_cases hq : q < 0
  · rw [if_pos hq]
    refine ⟨"-" ++ toString ((⌊-q * 1000000 + 1 / 2⌋).toNat / 1000000),
      frac6 (⌊-q * 1000000 + 1 / 2⌋).toNat, ?_, rfl⟩
    simp [string_append_assoc]
  · rw [if_neg hq]
    exact ⟨toString ((⌊q * 1000000 + 1 / 2⌋).toNat / 1000000),
      frac6 (⌊q * 1000000 + 1 / 2⌋).toNat, rfl, rfl⟩

end AsciiGeom
